import Mathlib

/-!
Shallow embedding of `pdf_to_voice/main.py`.

The script is a linear pipeline: open a PDF (uncaught on failure), loop
`for i in range(count)` with a per-iteration `try`/`except: pass` around the
page lookup `pdf_Reader.pages[i]` and `page.extract_text()`, join the
collected fragments with `" ".join(textList)`, and either call
`gTTS(text=textString, lang='en', slow=False)` followed by
`myAudio.save("Audio.mp3")` when `textString.strip()` is truthy, or print
`"No extractable text found in the PDF."` otherwise.

Pages are modelled by the outcome of their fallible operations: looking up
`pdf_Reader.pages[i]` yields `Except String Page` (an exception or a page
object), and `page.extract_text()` yields `Except String String`.  A
document is the list of per-index lookup outcomes, whose length is
`len(pdf_Reader.pages)`.  The observable behaviour of the script is a trace
of events (synthesizer call, file save, console print), and a file system is
a map from paths to optional contents on which saves act.
-/

/-- Equality of exception-or-value outcomes is decidable. -/
instance instDecEqExcept {ε α : Type} [DecidableEq ε] [DecidableEq α] :
    DecidableEq (Except ε α) := fun x y =>
  match x, y with
  | Except.ok a, Except.ok b =>
      if h : a = b then isTrue (congrArg Except.ok h)
      else isFalse (fun hc => h (Except.ok.inj hc))
  | Except.error a, Except.error b =>
      if h : a = b then isTrue (congrArg Except.error h)
      else isFalse (fun hc => h (Except.error.inj hc))
  | Except.ok _, Except.error _ => isFalse (fun hc => Except.noConfusion hc)
  | Except.error _, Except.ok _ => isFalse (fun hc => Except.noConfusion hc)

/-- A PDF page object: `extract_text()` either returns the page text
(possibly empty) or raises. -/
structure Page where
  extract_text : Except String String
  deriving DecidableEq

/-- Python whitespace for `str.strip()`: the characters on which
`str.isspace()` holds — tab through carriage return (U+0009-U+000D), the
separators U+001C-U+001F, space, next line U+0085, no-break space U+00A0,
ogham space U+1680, the en-quad..hair-space range U+2000-U+200A, line and
paragraph separators U+2028/U+2029, narrow no-break space U+202F, medium
mathematical space U+205F and ideographic space U+3000. -/
def isPySpace (c : Char) : Bool :=
  let n := c.toNat
  (9 ≤ n && n ≤ 13) || (28 ≤ n && n ≤ 31) || n = 32 ||
  n = 133 || n = 160 || n = 5760 || (8192 ≤ n && n ≤ 8202) ||
  n = 8232 || n = 8233 || n = 8239 || n = 8287 || n = 12288

/-- `str.strip()` on the character list: drop whitespace from both ends. -/
def pyStripList (l : List Char) : List Char :=
  ((l.dropWhile isPySpace).reverse.dropWhile isPySpace).reverse

/-- Python `s.strip()`. -/
def pyStrip (s : String) : String :=
  ⟨pyStripList s.data⟩

/-- Python `sep.join(l)`: the separator goes between consecutive elements
and nowhere else. -/
def pyJoin (sep : String) : List String → String
  | [] => ""
  | [s] => s
  | s :: rest => s ++ sep ++ pyJoin sep rest

/-- The body of the `try`: `pdf_Reader.pages[i]` followed by
`page.extract_text()`; an exception in either step propagates to the
`except` handler. -/
def tryPage (pe : Except String Page) : Except String String :=
  pe.bind fun page => page.extract_text

/-- `pdf_Reader.pages[i]`: the i-th lookup outcome (out of range raises). -/
def pagesAt : List (Except String Page) → Nat → Except String Page
  | [], _ => Except.error "IndexError"
  | pe :: _, 0 => pe
  | _ :: rest, i + 1 => pagesAt rest i

/-- `try`/`except` around a fallible computation: on an exception run the
handler (`except: pass` hands back the unchanged accumulator). -/
def tryCatchE (x : Except String (List String)) (handler : String → Except String (List String)) :
    Except String (List String) :=
  match x with
  | Except.ok a => Except.ok a
  | Except.error e => handler e

/-- One iteration of the extraction loop:
`try: page = pdf_Reader.pages[i]; textList.append(page.extract_text())
except: pass`. -/
def extractIter (pe : Except String Page) (acc : List String) :
    Except String (List String) :=
  tryCatchE ((tryPage pe).map fun t => acc ++ [t]) (fun _ => Except.ok acc)

/-- The whole extraction loop `for i in range(count)` (with
`count = len(pdf_Reader.pages)`), as a fallible computation: an uncaught
exception of any iteration would abort it. -/
def extractLoopE (doc : List (Except String Page)) : Except String (List String) :=
  (List.range doc.length).foldlM (fun acc i => extractIter (pagesAt doc i) acc) []

/-- `textList` after the loop (the loop in fact never raises, see
`extractLoopE_ok`). -/
def textList (doc : List (Except String Page)) : List String :=
  match extractLoopE doc with
  | Except.ok l => l
  | Except.error _ => []

/-- `textString = " ".join(textList)`. -/
def textString (doc : List (Except String Page)) : String :=
  pyJoin " " (textList doc)

/-- `language = 'en'`. -/
def language : String := "en"

/-- Observable events of the script, with audio bytes of type `α`:
a call of the synthesis backend, a file save, a console print. -/
inductive Event (α : Type) where
  | synthCall (text lang : String) (slow : Bool) : Event α
  | saveFile (path : String) (bytes : α) : Event α
  | printLine (msg : String) : Event α
  deriving DecidableEq

/-- Recognizes a synthesizer invocation in a trace. -/
def isSynthCall {α : Type} : Event α → Bool
  | Event.synthCall _ _ _ => true
  | _ => false

/-- The tail of the script: `if textString.strip():` call
`gTTS(text=textString, lang=language, slow=False)` and save the result to
`"Audio.mp3"`, `else:` print the message.  `backend` is the deterministic
synthesis function text → lang → slow → audio bytes. -/
def mainTrace {α : Type} (backend : String → String → Bool → α)
    (doc : List (Except String Page)) : List (Event α) :=
  if pyStrip (textString doc) ≠ "" then
    [Event.synthCall (textString doc) language false,
     Event.saveFile "Audio.mp3" (backend (textString doc) language false)]
  else
    [Event.printLine "No extractable text found in the PDF."]

/-- Effect of one event on a file system (a map from path to optional
contents): only `saveFile` writes, overwriting whatever was at the path. -/
def runEvent {α : Type} (fs : String → Option α) : Event α → String → Option α
  | Event.saveFile path bytes => fun p => if p = path then some bytes else fs p
  | Event.synthCall _ _ _ => fs
  | Event.printLine _ => fs

/-- Effect of a whole trace on a file system. -/
def runTrace {α : Type} (fs : String → Option α) (es : List (Event α)) :
    String → Option α :=
  es.foldl runEvent fs

/-- The whole script including the loading stage (lines 6-9): `open` and
`PdfReader` stand outside every `try`, so a loading exception propagates
and nothing further runs.  `loadRes` is the outcome of loading. -/
def program {α : Type} (backend : String → String → Bool → α)
    (loadRes : Except String (List (Except String Page))) :
    Except String (List (Event α)) :=
  loadRes.bind fun doc => Except.ok (mainTrace backend doc)

/-- Spec-side description of the fragment list: the per-page extraction
results in page order, failed pages contributing nothing. -/
def specFragments (doc : List (Except String Page)) : List String :=
  doc.filterMap fun pe => (tryPage pe).toOption

/-- Spec-side description of the fragments together with their source page
indices. -/
def fragmentsWithIdx (doc : List (Except String Page)) : List (Nat × String) :=
  doc.enum.filterMap fun ip => ((tryPage ip.2).toOption).map fun t => (ip.1, t)

/-- Pure value of one loop iteration: a successful extraction appends its
text, a failure leaves the accumulator unchanged. -/
def stepPure (pe : Except String Page) (acc : List String) : List String :=
  match tryPage pe with
  | Except.ok t => acc ++ [t]
  | Except.error _ => acc

lemma extractIter_eq_ok (pe : Except String Page) (acc : List String) :
    extractIter pe acc = Except.ok (stepPure pe acc) := by
  unfold extractIter stepPure
  cases h : tryPage pe with
  | ok t => rfl
  | error e => rfl

lemma foldlM_extractIter (doc : List (Except String Page)) :
    ∀ (is : List Nat) (acc : List String),
      is.foldlM (fun a i => extractIter (pagesAt doc i) a) acc
        = Except.ok (is.foldl (fun a i => stepPure (pagesAt doc i) a) acc) := by
  intro is
  induction is with
  | nil => intro acc; rfl
  | cons i is ih =>
      intro acc
      rw [List.foldlM_cons, extractIter_eq_ok, List.foldl_cons]
      exact ih (stepPure (pagesAt doc i) acc)

lemma foldl_stepPure_range (doc : List (Except String Page)) :
    ∀ acc : List String,
      (List.range doc.length).foldl (fun a i => stepPure (pagesAt doc i) a) acc
        = acc ++ specFragments doc := by
  induction doc with
  | nil => intro acc; simp [specFragments]
  | cons pe rest ih =>
      intro acc
      rw [List.length_cons, List.range_succ_eq_map, List.foldl_cons, List.foldl_map]
      have hfun : (fun (a : List String) (i : Nat) => stepPure (pagesAt (pe :: rest) (Nat.succ i)) a)
          = fun (a : List String) (i : Nat) => stepPure (pagesAt rest i) a := rfl
      rw [hfun, ih]
      show stepPure pe acc ++ specFragments rest = acc ++ specFragments (pe :: rest)
      unfold stepPure specFragments
      cases h : tryPage pe with
      | ok t => simp [List.filterMap_cons, h, Except.toOption]
      | error e => simp [List.filterMap_cons, h, Except.toOption]

lemma extractLoopE_ok (doc : List (Except String Page)) :
    extractLoopE doc = Except.ok (specFragments doc) := by
  unfold extractLoopE
  rw [foldlM_extractIter, foldl_stepPure_range]
  rfl

lemma textList_eq (doc : List (Except String Page)) :
    textList doc = specFragments doc := by
  unfold textList
  rw [extractLoopE_ok]

lemma except_toOption_some {ε α : Type} {e : Except ε α} {a : α}
    (h : e.toOption = some a) : e = Except.ok a := by
  cases e with
  | ok b => simp [Except.toOption] at h; rw [h]
  | error e => simp [Except.toOption] at h

lemma pyStrip_eq_empty (s : String) (h : ∀ c ∈ s.data, isPySpace c = true) :
    pyStrip s = "" := by
  unfold pyStrip pyStripList
  have h1 : s.data.dropWhile isPySpace = [] := List.dropWhile_eq_nil_iff.2 h
  rw [h1]
  rfl

lemma pyJoin_space_all (l : List String)
    (h : ∀ s ∈ l, ∀ c ∈ s.data, isPySpace c = true) :
    ∀ c ∈ (pyJoin " " l).data, isPySpace c = true := by
  induction l with
  | nil => intro c hc; simp [pyJoin] at hc
  | cons s rest ih =>
      cases rest with
      | nil =>
          intro c hc
          exact h s (by simp) c (by simpa [pyJoin] using hc)
      | cons s2 r2 =>
          intro c hc
          have hd : (pyJoin " " (s :: s2 :: r2)).data
              = s.data ++ (" " : String).data ++ (pyJoin " " (s2 :: r2)).data := by
            show ((s ++ " " ++ pyJoin " " (s2 :: r2)) : String).data = _
            rw [String.data_append, String.data_append]
          rw [hd] at hc
          rcases List.mem_append.1 hc with hc1 | hc2
      
      
          · rcases List.mem_append.1 hc1 with hca | hcb
            · exact h s (by simp) c hca
            · have hsp : c = ' ' := by simpa using hcb
              rw [hsp]; decide
          · exact ih (fun t ht c2 hc2m => h t (by simp [ht]) c2 hc2m) c hc2

lemma textString_all_space (doc : List (Except String Page))
    (h : ∀ pe ∈ doc, ∀ t, tryPage pe = Except.ok t → ∀ c ∈ t.data, isPySpace c = true) :
    pyStrip (textString doc) = "" := by
  apply pyStrip_eq_empty
  unfold textString
  apply pyJoin_space_all
  intro s hs
  rw [textList_eq] at hs
  unfold specFragments at hs
  rcases List.mem_filterMap.1 hs with ⟨pe, hpe, hsome⟩
  exact h pe hpe s (except_toOption_some hsome)

lemma filterMap_guard_sublist {β γ δ : Type} (l : List β) (o : β → Option γ) (g : β → δ) :
    List.Sublist (l.filterMap fun x => (o x).map fun _ => g x) (l.map g) := by
  induction l with
  | nil => simp
  | cons x xs ih =>
      rw [List.filterMap_cons, List.map_cons]
      cases ho : o x with
      | none => simp only [ho, Option.map_none']; exact List.Sublist.cons _ ih
      | some y => simp only [ho, Option.map_some']; exact List.Sublist.cons₂ _ ih

lemma textList_congr (doc1 doc2 : List (Except String Page))
    (h : doc1.map tryPage = doc2.map tryPage) : textList doc1 = textList doc2 := by
  rw [textList_eq, textList_eq]
  unfold specFragments
  have e1 : doc1.filterMap (fun pe => (tryPage pe).toOption)
      = (doc1.map tryPage).filterMap Except.toOption :=
    (List.filterMap_map tryPage Except.toOption doc1).symm
  rw [e1, h, List.filterMap_map]
  rfl

/-- Claim C1: for every document with at least one page whose extraction
succeeds, any text handed to the synthesizer equals the space-join, in page
order, of the per-page extracted fragments, failed pages contributing no
fragment and empty successful fragments still participating in the join. -/
theorem claim1_synth_text_is_joined_fragments {α : Type}
    (backend : String → String → Bool → α) (doc : List (Except String Page))
    (_hsucc : ∃ pe ∈ doc, ∃ t, tryPage pe = Except.ok t) :
    ∀ text lang slow, Event.synthCall text lang slow ∈ mainTrace backend doc →
      text = pyJoin " " (specFragments doc) := by
  intro text lang slow hmem
  unfold mainTrace at hmem
  by_cases hc : pyStrip (textString doc) ≠ ""
  · rw [if_pos hc] at hmem
    simp at hmem
    rw [hmem.1]
    show pyJoin " " (textList doc) = pyJoin " " (specFragments doc)
    rw [textList_eq]
  · rw [if_neg hc] at hmem
    simp at hmem

/-- Witness for C1: a three-page document (one page with text, one raising
page, one page extracting the empty string); the synthesized text is
ported with the trailing separator the empty fragment contributes. -/
theorem claim1_witness :
    (∃ pe ∈ ([Except.ok ⟨Except.ok "Hello"⟩, Except.error "bad",
        Except.ok ⟨Except.ok ""⟩] : List (Except String Page)),
          ∃ t, tryPage pe = Except.ok t)
    ∧ "Hello " = pyJoin " " (specFragments [Except.ok ⟨Except.ok "Hello"⟩,
        Except.error "bad", Except.ok ⟨Except.ok ""⟩]) :=
  ⟨⟨Except.ok ⟨Except.ok "Hello"⟩, by simp, "Hello", rfl⟩,
    claim1_synth_text_is_joined_fragments (fun (t : String) _ _ => t)
      [Except.ok ⟨Except.ok "Hello"⟩, Except.error "bad", Except.ok ⟨Except.ok ""⟩]
      ⟨Except.ok ⟨Except.ok "Hello"⟩, by simp, "Hello", rfl⟩
      "Hello " "en" false (by decide)⟩

/-- Claim C2: when every page extraction fails or every extracted fragment
is whitespace-only, the script prints exactly the message, calls no
synthesizer and saves no file. -/
theorem claim2_empty_content_prints {α : Type}
    (backend : String → String → Bool → α) (doc : List (Except String Page))
    (h : ∀ pe ∈ doc, ∀ t, tryPage pe = Except.ok t → ∀ c ∈ t.data, isPySpace c = true) :
    mainTrace backend doc = [Event.printLine "No extractable text found in the PDF."]
    ∧ (∀ path bytes, Event.saveFile path bytes ∉ mainTrace backend doc)
    ∧ (∀ text lang slow, Event.synthCall text lang slow ∉ mainTrace backend doc) := by
  have hts := textString_all_space doc h
  have htr : mainTrace backend doc
      = [Event.printLine "No extractable text found in the PDF."] := by
    simp [mainTrace, hts]
  refine ⟨htr, ?_, ?_⟩
  · intro path bytes hmem; rw [htr] at hmem; simp at hmem
  · intro text lang slow hmem; rw [htr] at hmem; simp at hmem

/-- Witness for C2: one whitespace-only page and one raising page take the
message branch. -/
theorem claim2_witness :
    mainTrace (fun (t : String) (_ : String) (_ : Bool) => t)
        [Except.ok ⟨Except.ok "  "⟩, Except.error "x"]
      = [Event.printLine "No extractable text found in the PDF."] :=
  (claim2_empty_content_prints (fun (t : String) _ _ => t)
    [Except.ok ⟨Except.ok "  "⟩, Except.error "x"]
    (by
      intro pe hpe t ht c hc
      simp only [List.mem_cons, List.not_mem_nil, or_false] at hpe
      rcases hpe with h1 | h1
      · subst h1
        have h3 : "  " = t := Except.ok.inj ht
        rw [← h3] at hc
        have hd : ("  " : String).data = [' ', ' '] := rfl
        rw [hd] at hc
        rcases List.mem_cons.1 hc with h4 | h4
        · rw [h4]; decide
        · rcases List.mem_cons.1 h4 with h5 | h5
          · rw [h5]; decide
          · exact absurd h5 (List.not_mem_nil c)
      · subst h1
        exact Except.noConfusion ht)).1

/-- Claim C3: when the joined text is non-empty after stripping, the script
invokes the backend exactly once with the joined text, language "en" and
normal speed, saves the audio to "Audio.mp3" (overwriting whatever the file
system held there), and prints nothing. -/
theorem claim3_nonempty_synthesizes {α : Type}
    (backend : String → String → Bool → α) (doc : List (Except String Page))
    (h : pyStrip (textString doc) ≠ "") :
    mainTrace backend doc
      = [Event.synthCall (textString doc) "en" false,
         Event.saveFile "Audio.mp3" (backend (textString doc) "en" false)]
    ∧ List.countP (fun e => isSynthCall e) (mainTrace backend doc) = 1
    ∧ (∀ msg, Event.printLine msg ∉ mainTrace backend doc)
    ∧ ∀ fs : String → Option α,
        runTrace fs (mainTrace backend doc) "Audio.mp3"
          = some (backend (textString doc) "en" false) := by
  have htr : mainTrace backend doc
      = [Event.synthCall (textString doc) "en" false,
         Event.saveFile "Audio.mp3" (backend (textString doc) "en" false)] := by
    simp [mainTrace, h, language]
  refine ⟨htr, ?_, ?_, ?_⟩
  · rw [htr]; rfl
  · intro msg hmem; rw [htr] at hmem; simp at hmem
  · intro fs; rw [htr]
    show runEvent (runEvent fs (Event.synthCall (textString doc) "en" false))
        (Event.saveFile "Audio.mp3" (backend (textString doc) "en" false)) "Audio.mp3"
      = some (backend (textString doc) "en" false)
    simp [runEvent]

/-- Witness for C3: a one-page document reading "Hello" is synthesized with
language "en", normal speed, and saved to "Audio.mp3". -/
theorem claim3_witness :
    pyStrip (textString ([Except.ok ⟨Except.ok "Hello"⟩] : List (Except String Page))) ≠ ""
    ∧ mainTrace (fun (t : String) (_ : String) (_ : Bool) => t)
        [Except.ok ⟨Except.ok "Hello"⟩]
      = [Event.synthCall "Hello" "en" false, Event.saveFile "Audio.mp3" "Hello"] := by
  refine ⟨by decide, ?_⟩
  have h := (claim3_nonempty_synthesizes (fun (t : String) _ _ => t)
    [Except.ok ⟨Except.ok "Hello"⟩] (by decide)).1
  rw [h]
  decide

/-- Claim C4: a page whose lookup or extraction raises contributes no
fragment and does not abort the extraction of the remaining pages. -/
theorem claim4_failed_page_skipped (pre post : List (Except String Page))
    (pe : Except String Page) (e : String) (h : tryPage pe = Except.error e) :
    textList (pre ++ pe :: post) = textList pre ++ textList post := by
  rw [textList_eq, textList_eq, textList_eq]
  unfold specFragments
  rw [List.filterMap_append, List.filterMap_cons]
  simp [h, Except.toOption]

/-- Witness for C4: a raising middle page between two good pages. -/
theorem claim4_witness :
    tryPage (Except.error "boom") = Except.error "boom"
    ∧ textList ([Except.ok ⟨Except.ok "a"⟩]
          ++ Except.error "boom" :: [Except.ok ⟨Except.ok "b"⟩])
      = textList [Except.ok ⟨Except.ok "a"⟩] ++ textList [Except.ok ⟨Except.ok "b"⟩] :=
  ⟨rfl, claim4_failed_page_skipped [Except.ok ⟨Except.ok "a"⟩]
    [Except.ok ⟨Except.ok "b"⟩] (Except.error "boom") "boom" rfl⟩

/-- Claim C5: the fragment list is at most as long as the page count, each
fragment carries the index of its source page, and those indices are
strictly increasing (fragments appear in page order). -/
theorem claim5_fragments_ordered_bounded (doc : List (Except String Page)) :
    (textList doc).length ≤ doc.length
    ∧ textList doc = (fragmentsWithIdx doc).map Prod.snd
    ∧ List.Pairwise (fun i j => i < j) ((fragmentsWithIdx doc).map Prod.fst) := by
  refine ⟨?_, ?_, ?_⟩
  · rw [textList_eq]
    exact List.length_filterMap_le _ _
  · rw [textList_eq]
    unfold specFragments fragmentsWithIdx
    rw [List.map_filterMap]
    simp only [Option.map_map]
    conv_lhs => rw [← List.enum_map_snd doc]
    rw [List.filterMap_map]
    congr 1
    funext ip
    cases hip : (tryPage ip.2).toOption with
    | none => simp [Function.comp, hip]
    | some t => simp [Function.comp, hip]
  · have hsub : List.Sublist ((fragmentsWithIdx doc).map Prod.fst)
        (doc.enum.map Prod.fst) := by
      unfold fragmentsWithIdx
      rw [List.map_filterMap]
      simp only [Option.map_map]
      exact filterMap_guard_sublist doc.enum (fun ip => (tryPage ip.2).toOption) Prod.fst
    rw [List.enum_map_fst] at hsub
    exact (List.pairwise_lt_range doc.length).sublist hsub

/-- Claim C6: a loading failure (inaccessible path or unparsable PDF) is
caught nowhere: the program propagates it and produces no event trace. -/
theorem claim6_load_error_propagates {α : Type}
    (backend : String → String → Bool → α) (e : String) :
    program backend (Except.error e) = Except.error e
    ∧ ∀ events : List (Event α), program backend (Except.error e) ≠ Except.ok events := by
  refine ⟨rfl, ?_⟩
  intro events hok
  exact Except.noConfusion hok

/-- Claim C7: the pipeline is deterministic: with equal per-page extraction
outcomes and an extensionally equal deterministic backend, two runs yield
the same joined text, the same trace and the same resulting file system. -/
theorem claim7_pipeline_deterministic {α : Type}
    (b1 b2 : String → String → Bool → α) (doc1 doc2 : List (Except String Page))
    (hdoc : doc1.map tryPage = doc2.map tryPage)
    (hb : ∀ t l s, b1 t l s = b2 t l s) :
    textString doc1 = textString doc2
    ∧ mainTrace b1 doc1 = mainTrace b2 doc2
    ∧ ∀ (fs : String → Option α) (p : String),
        runTrace fs (mainTrace b1 doc1) p = runTrace fs (mainTrace b2 doc2) p := by
  have hts : textString doc1 = textString doc2 := by
    unfold textString
    rw [textList_congr doc1 doc2 hdoc]
  have htr : mainTrace b1 doc1 = mainTrace b2 doc2 := by
    simp only [mainTrace, hts, hb]
  exact ⟨hts, htr, fun fs p => by rw [htr]⟩

/-- Witness for C7: two documents with distinct page objects but identical
extraction outcomes give the same joined text. -/
theorem claim7_witness :
    (([Except.ok ⟨Except.error "x"⟩] : List (Except String Page)).map tryPage
      = ([Except.error "x"] : List (Except String Page)).map tryPage)
    ∧ textString [Except.ok ⟨Except.error "x"⟩] = textString [Except.error "x"] :=
  ⟨rfl, (claim7_pipeline_deterministic (fun (t : String) _ _ => t)
      (fun (t : String) _ _ => t)
      [Except.ok ⟨Except.error "x"⟩] [Except.error "x"] rfl (fun _ _ _ => rfl)).1⟩

/-- Claim C8: on a zero-page document the loop body never runs, the fragment
list and joined string are empty, and the script takes the message branch
without touching the file system. -/
theorem claim8_zero_pages {α : Type} (backend : String → String → Bool → α)
    (fs : String → Option α) :
    textList ([] : List (Except String Page)) = []
    ∧ textString ([] : List (Except String Page)) = ""
    ∧ mainTrace backend ([] : List (Except String Page))
        = [Event.printLine "No extractable text found in the PDF."]
    ∧ ∀ p, runTrace fs (mainTrace backend ([] : List (Except String Page))) p = fs p := by
  have hc : pyStrip (textString ([] : List (Except String Page))) = "" := by decide
  have htr : mainTrace backend ([] : List (Except String Page))
      = [Event.printLine "No extractable text found in the PDF."] := by
    simp [mainTrace, hc]
  refine ⟨rfl, rfl, htr, ?_⟩
  intro p
  rw [htr]
  rfl

/-- Claim C9: on the empty-content branch no event writes to any path, so
the file system — in particular a pre-existing "Audio.mp3" — is unchanged. -/
theorem claim9_empty_branch_frame {α : Type}
    (backend : String → String → Bool → α) (doc : List (Except String Page))
    (fs : String → Option α) (h : pyStrip (textString doc) = "") :
    (∀ path bytes, Event.saveFile path bytes ∉ mainTrace backend doc)
    ∧ ∀ p, runTrace fs (mainTrace backend doc) p = fs p := by
  have htr : mainTrace backend doc
      = [Event.printLine "No extractable text found in the PDF."] := by
    simp [mainTrace, h]
  refine ⟨?_, ?_⟩
  · intro path bytes hmem; rw [htr] at hmem; simp at hmem
  · intro p; rw [htr]; rfl

/-- Witness for C9: a document whose only page raises leaves a pre-existing
"Audio.mp3" untouched. -/
theorem claim9_witness :
    pyStrip (textString ([Except.error "bad"] : List (Except String Page))) = ""
    ∧ runTrace (fun _ => some "old")
        (mainTrace (fun (t : String) (_ : String) (_ : Bool) => t) [Except.error "bad"])
        "Audio.mp3" = some "old" :=
  ⟨by decide,
    (claim9_empty_branch_frame (fun (t : String) _ _ => t) [Except.error "bad"]
      (fun _ => some "old") (by decide)).2 "Audio.mp3"⟩

/-- Claim C10: because the per-iteration try encloses both the page lookup
and the extraction, the loop as a fallible computation always returns
normally with the fragment list — it completes every iteration for any
behaviour of the page objects. -/
theorem claim10_extraction_never_raises (doc : List (Except String Page)) :
    extractLoopE doc = Except.ok (textList doc) := by
  rw [textList_eq]
  exact extractLoopE_ok doc
